import Mathlib

/-!
# Verification of the speech-rule-engine core against its design specification

This file gives a shallow embedding, in Lean 4, of the parts of the
speech-rule-engine sources that the specification describes:

* the symbol classification registry and fence pairing tables of
  `src/ts/semantic_tree/semantic_attr.ts`;
* the Spanish number-to-words and number-to-ordinal functions of
  `src/ts/l10n/numbers_es.ts`;
* the bottom-up `annotate` and top-down `visit` tree traversals of
  `src/src/semantic_tree/semantic_annotator.js`.

JavaScript integers are modelled as `Nat`, strings as Lean `String`, and
`undefined` results as `Option.none`; the one place where the numeric
*rendering* of a large value matters, `Number.prototype.toString` in the
magnitude-ceiling fallbacks, is modelled by `jsNumberToString` (see its doc
comment for the model's scope).
-/

namespace SRE

/-!
## JavaScript `Map` model

`SemanticMap.Meaning`, `SemanticMap.FencesHoriz` and `SemanticMap.FencesVert`
are JavaScript `Map`s with string keys.  We model such a map as the list of
`(key, value)` pairs in the order in which they were inserted by `set` calls
(respectively, listed in the `new Map([...])` constructor); `get` returns the
value of the *last* insertion for the key, which is exactly the value held by
the JavaScript map, since `Map.prototype.set` overwrites the value stored
under an existing key.
-/

abbrev JsMap (α : Type) : Type := List (String × α)

/-- Model of `Map.prototype.set(k, v)`: record the insertion.  Since `JsMap.get?`
returns the last recorded value for a key, appending models the overwrite
semantics of the JavaScript method. -/
def JsMap.set (m : JsMap α) (k : String) (v : α) : JsMap α :=
  m ++ [(k, v)]

/-- Model of `Map.prototype.get(k)`: the value of the last insertion for `k`, or
`none` (JavaScript `undefined`) if `k` was never inserted. -/
def JsMap.get? : JsMap α → String → Option α
  | [], _ => none
  | (k, v) :: m, s =>
    match JsMap.get? m s with
    | some w => some w
    | none => if s == k then some v else none

/-- The keys of the map, in insertion order (`Map.prototype.keys()` without
deduplication; the maps in this development are only built with distinct
keys). -/
def JsMap.keys (m : JsMap α) : List String :=
  m.map Prod.fst

theorem JsMap.get?_nil (s : String) : JsMap.get? ([] : JsMap α) s = none := rfl

theorem JsMap.get?_cons (k : String) (v : α) (m : JsMap α) (s : String) :
    JsMap.get? ((k, v) :: m : JsMap α) s =
      match JsMap.get? m s with
      | some w => some w
      | none => if s == k then some v else none := rfl

theorem JsMap.get?_append_single (m : JsMap α) (k : String) (v : α)
    (s : String) :
    JsMap.get? (m ++ [(k, v)]) s = if s == k then some v else m.get? s := by
  induction m with
  | nil =>
    show JsMap.get? ((k, v) :: []) s = _
    rw [JsMap.get?_cons]
    cases h : (s == k) <;> simp [h, JsMap.get?]
  | cons p m ih =>
    obtain ⟨k', v'⟩ := p
    rw [List.cons_append, JsMap.get?_cons, ih]
    conv_rhs => rw [JsMap.get?_cons]
    cases h : (s == k) <;> simp [h]

theorem JsMap.get?_eq_none_of_not_mem_keys (m : JsMap α) (s : String)
    (h : s ∉ m.keys) : m.get? s = none := by
  induction m with
  | nil => rfl
  | cons p m ih =>
    obtain ⟨k, v⟩ := p
    have hk : s ≠ k := by
      intro hs
      exact h (by simp [JsMap.keys, hs])
    have hm : s ∉ JsMap.keys m := by
      intro hs
      exact h (by simp [JsMap.keys] at hs ⊢; exact Or.inr hs)
    rw [JsMap.get?_cons, ih hm]
    simp [hk]

/-- On a map whose keys are pairwise distinct, `get?` returns `some v`
exactly when `(k, v)` is one of the map's entries. -/
theorem JsMap.get?_eq_some_iff_mem (m : JsMap α) (hm : m.keys.Nodup)
    (s : String) (v : α) : m.get? s = some v ↔ (s, v) ∈ m := by
  induction m with
  | nil => simp [JsMap.get?]
  | cons p m ih =>
    obtain ⟨k, w⟩ := p
    have hnd : (JsMap.keys m).Nodup := (List.nodup_cons.mp hm).2
    have hk : k ∉ JsMap.keys m := (List.nodup_cons.mp hm).1
    rw [JsMap.get?_cons]
    by_cases hs : s = k
    · subst hs
      rw [JsMap.get?_eq_none_of_not_mem_keys m s hk]
      have hsv : (s, v) ∉ m := fun hmem =>
        hk (List.mem_map.mpr ⟨(s, v), hmem, rfl⟩)
      constructor
      · intro h
        simp at h
        exact List.mem_cons.mpr (Or.inl (by rw [h]))
      · intro h
        rcases List.mem_cons.mp h with h | h
        · simp [Prod.ext_iff] at h
          simp [h]
        · exact absurd h hsv
    · have hiff : ((s, v) ∈ (k, w) :: m) ↔ ((s, v) ∈ m) := by
        rw [List.mem_cons]
        constructor
        · rintro (h | h)
          · cases h; exact absurd rfl hs
          · exact h
        · exact Or.inr
      rw [hiff]
      rcases h : JsMap.get? m s with _ | u
      · simp only [h] at ih
        simp [hs, ← ih hnd]
      · simpa [h] using ih hnd

/-!
## Fence tables and `isMatchingFence` (`semantic_attr.ts`)
-/

/-- Table `SemanticMap.FencesHoriz`: the horizontal fence pairing table, mapping each
opening fence to its closing fence (`new Map([...])` over the listed pairs). -/
def FencesHoriz : JsMap String := [
  ("\u0028", "\u0029"),
  ("\u005b", "\u005d"),
  ("\u007b", "\u007d"),
  ("\u2045", "\u2046"),
  ("\u2329", "\u232a"),
  ("\u2768", "\u2769"),
  ("\u276a", "\u276b"),
  ("\u276c", "\u276d"),
  ("\u276e", "\u276f"),
  ("\u2770", "\u2771"),
  ("\u2772", "\u2773"),
  ("\u2774", "\u2775"),
  ("\u27c5", "\u27c6"),
  ("\u27e6", "\u27e7"),
  ("\u27e8", "\u27e9"),
  ("\u27ea", "\u27eb"),
  ("\u27ec", "\u27ed"),
  ("\u27ee", "\u27ef"),
  ("\u2983", "\u2984"),
  ("\u2985", "\u2986"),
  ("\u2987", "\u2988"),
  ("\u2989", "\u298a"),
  ("\u298b", "\u298c"),
  ("\u298d", "\u298e"),
  ("\u298f", "\u2990"),
  ("\u2991", "\u2992"),
  ("\u2993", "\u2994"),
  ("\u2995", "\u2996"),
  ("\u2997", "\u2998"),
  ("\u29d8", "\u29d9"),
  ("\u29da", "\u29db"),
  ("\u29fc", "\u29fd"),
  ("\u2e22", "\u2e23"),
  ("\u2e24", "\u2e25"),
  ("\u2e26", "\u2e27"),
  ("\u2e28", "\u2e29"),
  ("\u3008", "\u3009"),
  ("\u300a", "\u300b"),
  ("\u300c", "\u300d"),
  ("\u300e", "\u300f"),
  ("\u3010", "\u3011"),
  ("\u3014", "\u3015"),
  ("\u3016", "\u3017"),
  ("\u3018", "\u3019"),
  ("\u301a", "\u301b"),
  ("\ufd3e", "\ufd3f"),
  ("\ufe17", "\ufe18"),
  ("\ufe59", "\ufe5a"),
  ("\ufe5b", "\ufe5c"),
  ("\ufe5d", "\ufe5e"),
  ("\uff08", "\uff09"),
  ("\uff3b", "\uff3d"),
  ("\uff5b", "\uff5d"),
  ("\uff5f", "\uff60"),
  ("\uff62", "\uff63"),
  ("\u2308", "\u2309"),
  ("\u230a", "\u230b"),
  ("\u230c", "\u230d"),
  ("\u230e", "\u230f"),
  ("\u231c", "\u231d"),
  ("\u231e", "\u231f"),
  ("\u239b", "\u239e"),
  ("\u239c", "\u239f"),
  ("\u239d", "\u23a0"),
  ("\u23a1", "\u23a4"),
  ("\u23a2", "\u23a5"),
  ("\u23a3", "\u23a6"),
  ("\u23a7", "\u23ab"),
  ("\u23a8", "\u23ac"),
  ("\u23a9", "\u23ad"),
  ("\u23b0", "\u23b1"),
  ("\u23b8", "\u23b9")
]

/-- Table `SemanticMap.FencesVert`: the vertical fence pairing table, mapping each
top fence to its bottom fence. -/
def FencesVert : JsMap String := [
  ("\u23b4", "\u23b5"),
  ("\u23dc", "\u23dd"),
  ("\u23de", "\u23df"),
  ("\u23e0", "\u23e1"),
  ("\ufe35", "\ufe36"),
  ("\ufe37", "\ufe38"),
  ("\ufe39", "\ufe3a"),
  ("\ufe3b", "\ufe3c"),
  ("\ufe3d", "\ufe3e"),
  ("\ufe3f", "\ufe40"),
  ("\ufe41", "\ufe42"),
  ("\ufe43", "\ufe44"),
  ("\ufe47", "\ufe48")
]

/-- Set `neutralFences`: fences that match only themselves (vertical bars etc.). -/
def neutralFences : List String :=
  ["\u007c", "\u00a6", "\u2223", "\u23d0", "\u23b8", "\u23b9", "\u2758", "\uff5c", "\uffe4", "\ufe31", "\ufe32", "\ufe33", "\ufe34", "\uffe8"]

/-- Set `metricFences`: metric fences (double bars); same self-matching rule as
neutral fences but a distinct semantic role. -/
def metricFences : List String :=
  ["\u2016", "\u2225", "\u2980", "\u2af4"]

/-- Function `isMatchingFence(open, close)` from `semantic_attr.ts`:

    if (neutralFences.indexOf(open) !== -1 || metricFences.indexOf(open) !== -1) {
      return open === close;
    }
    return SemanticMap.FencesHoriz.get(open) === close ||
      SemanticMap.FencesVert.get(open) === close;

(`undefined === close` is `false` for the string `close`, which the
`Option`-valued comparison reproduces.)  Binders renamed `o`/`c` because
`open` is a Lean keyword.
-/
def isMatchingFence (o c : String) : Bool :=
  if neutralFences.contains o || metricFences.contains o then
    o == c
  else
    FencesHoriz.get? o == some c || FencesVert.get? o == some c

theorem fencesHoriz_keys_nodup : FencesHoriz.keys.Nodup := by decide

theorem fencesVert_keys_nodup : FencesVert.keys.Nodup := by decide

/-- Claim C1, counterexample.  The character `⎸` (U+23B8, LEFT VERTICAL BOX
LINE) appears both as an opening fence of the horizontal pairing table (with
closing fence `⎹`, U+23B9) and in `neutralFences`.  The code tests the
neutral set first and therefore requires `open === close` for this pair, so
`isMatchingFence('⎸', '⎹')` is `false` although `('⎸', '⎹')` is an entry of
`FencesHoriz` — refuting the claimed "if and only if". -/
theorem c1_isMatchingFence_cex :
    ¬(isMatchingFence "⎸" "⎹" = true ↔
      (("⎸", "⎹") ∈ FencesHoriz ∨
        ("⎸", "⎹") ∈ FencesVert ∨
        ("⎸" = "⎹" ∧
          ("⎸" ∈ neutralFences ∨ "⎸" ∈ metricFences)))) := by
  decide

/-- Claim C1, amended.  For every pair of strings, `isMatchingFence(open,
close)` returns true iff either `open` is a neutral or metric fence and
`open === close`, or `open` is *not* a neutral or metric fence and `(open,
close)` is an entry of the horizontal or of the vertical pairing table.  (In
particular `isMatchingFence('(', ')') = true`, `isMatchingFence('(', '}') =
false`, `isMatchingFence('|', '|') = true`.) -/
theorem c1_isMatchingFence_characterization (o c : String) :
    isMatchingFence o c = true ↔
      (((o ∈ neutralFences ∨ o ∈ metricFences) ∧ o = c) ∨
        (o ∉ neutralFences ∧ o ∉ metricFences ∧
          ((o, c) ∈ FencesHoriz ∨ (o, c) ∈ FencesVert))) := by
  unfold isMatchingFence
  by_cases h : o ∈ neutralFences ∨ o ∈ metricFences
  · have hb : (neutralFences.contains o || metricFences.contains o) = true := by
      rcases h with h | h
      · exact Bool.or_inl (List.elem_iff.mpr h)
      · exact Bool.or_inr (List.elem_iff.mpr h)
    rw [if_pos hb]
    constructor
    · intro he
      exact Or.inl ⟨h, by simpa using he⟩
    · rintro (⟨-, he⟩ | ⟨hn, hm, -⟩)
      · simpa using he
      · rcases h with h | h
        · exact absurd h hn
        · exact absurd h hm
  · have hb : ¬(neutralFences.contains o || metricFences.contains o) = true := by
      push_neg at h
      simp [List.elem_iff, h.1, h.2]
    rw [if_neg hb]
    push_neg at h
    rw [Bool.or_eq_true, beq_iff_eq, beq_iff_eq,
      JsMap.get?_eq_some_iff_mem FencesHoriz fencesHoriz_keys_nodup,
      JsMap.get?_eq_some_iff_mem FencesVert fencesVert_keys_nodup]
    constructor
    · intro hor
      exact Or.inr ⟨h.1, h.2, hor⟩
    · rintro (⟨hin, -⟩ | ⟨-, -, hor⟩)
      · rcases hin with hin | hin
        · exact absurd hin h.1
        · exact absurd hin h.2
      · exact hor

/-!
## The symbol meaning registry (`semantic_attr.ts`)

`SemanticType`, `SemanticRole` and `SemanticFont` are closed string enums
imported from `semantic_tree/semantic_meaning.ts`; we embed the variants
that the registry code of `semantic_attr.ts` uses.
-/

inductive SemanticType where
  | UNKNOWN
  | PUNCTUATION
  | FENCE
  | NUMBER
  | IDENTIFIER
  | TEXT
  | OPERATOR
  | RELATION
  | LARGEOP
  | FUNCTION
  deriving DecidableEq, Repr

inductive SemanticRole where
  | UNKNOWN
  | QUOTES
  | SEMICOLON
  | QUESTION
  | EXCLAMATION
  | OVERACCENT
  | UNDERACCENT
  | COLON
  | COMMA
  | ELLIPSIS
  | FULLSTOP
  | DASH
  | TILDE
  | PRIME
  | DEGREE
  | OPEN
  | CLOSE
  | TOP
  | BOTTOM
  | NEUTRAL
  | METRIC
  | LATINLETTER
  | GREEKLETTER
  | OTHERLETTER
  | FLOAT
  | INTEGER
  | ADDITION
  | MULTIPLICATION
  | SUBTRACTION
  | DIVISION
  | PREFIXOP
  | EQUALITY
  | INEQUALITY
  | SET
  | SETEMPTY
  | INFTY
  | LOGIC
  | ARROW
  | ELEMENT
  | NONELEMENT
  | REELEMENT
  | RENONELEMENT
  | SUM
  | INTEGRAL
  | BOX
  | BLOCK
  | GEOMETRY
  | LIMFUNC
  | PREFIXFUNC
  | SPACE
  deriving DecidableEq, Repr

inductive SemanticFont where
  | UNKNOWN
  | NORMAL
  | BOLD
  | ITALIC
  | BOLDITALIC
  | SCRIPT
  | BOLDSCRIPT
  | FRAKTUR
  | BOLDFRAKTUR
  | DOUBLESTRUCK
  | DOUBLESTRUCKITALIC
  | SANSSERIF
  | SANSSERIFITALIC
  | SANSSERIFBOLD
  | SANSSERIFBOLDITALIC
  | MONOSPACE
  | FULLWIDTH
  deriving DecidableEq, Repr

/-- Structure `SemanticMeaning`: the immutable type, role and font triple. -/
structure SemanticMeaning where
  type : SemanticType
  role : SemanticRole
  font : SemanticFont
  deriving DecidableEq, Repr

/-- The `UNKNOWN/UNKNOWN/UNKNOWN` bottom triple. -/
def unknownMeaning : SemanticMeaning :=
  { type := SemanticType.UNKNOWN
    role := SemanticRole.UNKNOWN
    font := SemanticFont.UNKNOWN }

/-- Method `meaningMap.get` from `semantic_attr.ts` (the class extending
`Map<string, SemanticMeaning>` of which `SemanticMap.Meaning` is the
instance):

    public get(symbol: string) {
      return (
        super.get(symbol) || {
          role: SemanticRole.UNKNOWN,
          type: SemanticType.UNKNOWN,
          font: SemanticFont.UNKNOWN
        }
      );
    }

A stored meaning is an object, hence always truthy, so `||` returns the
stored value when the symbol is present and the `UNKNOWN` triple otherwise.
-/
def meaningGet (m : JsMap SemanticMeaning) (symbol : String) : SemanticMeaning :=
  (m.get? symbol).getD unknownMeaning

/-- Interface `MeaningSet` from `semantic_attr.ts`: one assignment group of
`symbolSetToSemantic_` — a character set together with the meaning assigned
to each of its members.  `font` is optional in the source (`font?:
SemanticFont`); an absent field is falsy and is replaced by `UNKNOWN` in
`initMeaning`.  The optional `secondary` annotation feeds the independent
`SemanticMap.Secondary` map, which no claim concerns; it is not modelled.
-/
structure MeaningSet where
  set : List String
  type : SemanticType
  role : SemanticRole
  font : Option SemanticFont := none
  deriving DecidableEq

/-- The meaning that `initMeaning` stores for each symbol of a group
(`st.role || UNKNOWN`, `st.type || UNKNOWN`, `st.font || UNKNOWN`; `type`
and `role` are required fields, `font` defaults to `UNKNOWN`). -/
def setMeaningOf (st : MeaningSet) : SemanticMeaning :=
  { type := st.type, role := st.role, font := st.font.getD SemanticFont.UNKNOWN }

/-- The inner `st.set.forEach(symbol => SemanticMap.Meaning.set(symbol, ...))`
of `initMeaning`, acting on an explicit registry state. -/
def applyMeaningSet (m : JsMap SemanticMeaning) (st : MeaningSet) :
    JsMap SemanticMeaning :=
  st.set.foldl (fun m symbol => m.set symbol (setMeaningOf st)) m

/-- Function `initMeaning` from `semantic_attr.ts`:

    for (let i = 0, st: MeaningSet; (st = symbolSetToSemantic_[i]); i++) {
      st.set.forEach(function (symbol) {
        SemanticMap.Meaning.set(symbol, {...});
        ...
      });
    }

The loop walks the group array in order, stopping at the first missing
index, i.e. it processes the whole array front to back.  The global mutable
`SemanticMap.Meaning` is made explicit: the function takes the group list
and the registry state and returns the updated state.
-/
def initMeaning (sets : List MeaningSet) (m : JsMap SemanticMeaning) :
    JsMap SemanticMeaning :=
  sets.foldl applyMeaningSet m

/-- The last group of `sets` whose character set contains `g` (the group a
linear overwrite lets win), if any. -/
def lastContaining (sets : List MeaningSet) (g : String) : Option MeaningSet :=
  sets.foldl (fun acc st => if st.set.contains g then some st else acc) none

/-- Function `changeSemantics` from `semantic_attr.ts`:

    for (let [pos, meaning] of Object.entries(change)) {
      let character = alphabet[pos];
      if (character !== undefined) {
        SemanticMap.Meaning.set(character, meaning);
      }
    }

`change` is an object with numeric keys; `Object.entries` enumerates such
integer-like keys in ascending order, so it is modelled as the ascending
list of `(position, meaning)` pairs.
-/
def changeSemantics (m : JsMap SemanticMeaning) (alphabet : List String)
    (change : List (Nat × SemanticMeaning)) : JsMap SemanticMeaning :=
  change.foldl
    (fun m pc =>
      match alphabet.get? pc.1 with
      | some character => m.set character pc.2
      | none => m)
    m

/-- Function `singleAlphabet` from `semantic_attr.ts` (the parts that touch
`SemanticMap.Meaning`): look up the alphabet's unicode interval, assign
`{type, role, semfont}` to every character of the interval in order, then
apply the positional `change` overrides via `changeSemantics`.  The interval
table `Alphabet.INTERVALS` lives in `speech_rules/alphabet.ts`, which is not
among the sources; the resolved character list is therefore passed directly
(`none` models a name that is absent from the table, in which case the
source does nothing).  The `secondaries` updates go to the independent
`SemanticMap.Secondary` map and are not modelled.
-/
def singleAlphabet (m : JsMap SemanticMeaning) (interval : Option (List String))
    (type : SemanticType) (role : SemanticRole) (semfont : SemanticFont)
    (change : List (Nat × SemanticMeaning)) : JsMap SemanticMeaning :=
  match interval with
  | none => m
  | some unicode =>
    changeSemantics
      (unicode.foldl (fun m x => m.set x { type := type, role := role, font := semfont }) m)
      unicode change

/-- Modelled from the spec: the unicode interval that `Alphabet.INTERVALS` (in
`speech_rules/alphabet.ts`, not among the sources) yields for the lowercase
Greek alphabet in normal font.  Per the spec's §4.1, alphabet-range
expansion derives the codepoints of a declared Unicode interval, and the
lowercase Greek alphabet carries documented positional exceptions treating
its first and middle letter (positions 0 and 26, i.e. the operator
characters `∇` and `∂` surrounding `α`–`ω`) as operators rather than
identifiers.
-/
def greekSmallUnicode : List String :=
  ["∇",
   "α", "β", "γ", "δ", "ε", "ζ", "η",
   "θ", "ι", "κ", "λ", "μ", "ν", "ξ",
   "ο", "π", "ρ", "ς", "σ", "τ", "υ",
   "φ", "χ", "ψ", "ω",
   "∂", "ϵ", "ϑ", "ϰ", "ϕ", "ϱ", "ϖ"]

/-- The positional override passed for the lowercase Greek alphabet by
`alphabets()` (`semantic_attr.ts`, lines 2220–2227): positions 0 and 26
become `OPERATOR`/`PREFIXOP` in the alphabet's semantic font. -/
def greekSmallChange (semfont : SemanticFont) : List (Nat × SemanticMeaning) :=
  [(0, { type := SemanticType.OPERATOR, role := SemanticRole.PREFIXOP, font := semfont }),
   (26, { type := SemanticType.OPERATOR, role := SemanticRole.PREFIXOP, font := semfont })]

theorem applyMeaningSet_get? (m : JsMap SemanticMeaning) (st : MeaningSet)
    (g : String) :
    (applyMeaningSet m st).get? g =
      if g ∈ st.set then some (setMeaningOf st) else m.get? g := by
  unfold applyMeaningSet
  induction st.set generalizing m with
  | nil => simp
  | cons x xs ih =>
    rw [List.foldl_cons, ih]
    by_cases hx : g ∈ xs
    · simp [hx, List.mem_cons, Or.inr hx]
    · by_cases hg : g = x
      · subst hg
        simp [hx, JsMap.set, JsMap.get?_append_single]
      · have : g ∉ (x :: xs) := by
          intro hc
          rcases List.mem_cons.mp hc with hc | hc
          · exact hg hc
          · exact hx hc
        simp [hx, this, JsMap.set, JsMap.get?_append_single, hg]

/-- The registry state after `alphabets()` runs `singleAlphabet` for the
lowercase Greek alphabet in normal font (starting, for concreteness, from an
empty registry): the whole alphabet is assigned
`IDENTIFIER`/`GREEKLETTER`/`NORMAL`, then the positional overrides for
positions 0 and 26 are applied. -/
def greekRegistry : JsMap SemanticMeaning :=
  singleAlphabet [] (some greekSmallUnicode) SemanticType.IDENTIFIER
    SemanticRole.GREEKLETTER SemanticFont.NORMAL
    (greekSmallChange SemanticFont.NORMAL)

theorem initMeaning_get?_lastContaining (sets : List MeaningSet)
    (m : JsMap SemanticMeaning) (g : String) :
    (initMeaning sets m).get? g =
      match lastContaining sets g with
      | some st => some (setMeaningOf st)
      | none => m.get? g := by
  induction sets using List.reverseRecOn with
  | nil => simp [initMeaning, lastContaining]
  | append_singleton ss st ih =>
    unfold initMeaning lastContaining at *
    rw [List.foldl_append, List.foldl_append]
    simp only [List.foldl_cons, List.foldl_nil]
    rw [applyMeaningSet_get?]
    by_cases h : g ∈ st.set
    · simp [h, List.elem_iff.mpr h]
    · have hc : st.set.contains g = false := by
        cases hcc : st.set.contains g
        · rfl
        · exact absurd (List.elem_iff.mp hcc) h
      simp [h, hc, ih]

/-- Claim C5.  Registry initialization processes assignment groups in order,
each `Meaning.set` overwriting any earlier assignment for the same glyph.

First conjunct: for every list of assignment groups, every initial registry
state and every glyph contained in more than one group, the meaning finally
stored for the glyph is exactly the meaning derived from the last group
that contains it.

Second conjunct: the concrete positional override of `alphabets()` for the
lowercase Greek alphabet — after `singleAlphabet` processes the alphabet
group (every letter `IDENTIFIER`/`GREEKLETTER`) and then the positional
`change` entries for positions 0 and 26, the characters at those positions
(`∇` and `∂`) carry the overriding `OPERATOR`/`PREFIXOP` meaning while an
un-overridden letter such as `α` keeps the group meaning. -/
theorem c5_initMeaning_last_group_wins :
    (∀ (sets : List MeaningSet) (m : JsMap SemanticMeaning) (g : String)
        (st : MeaningSet),
        2 ≤ sets.countP (fun st => st.set.contains g) →
        lastContaining sets g = some st →
        meaningGet (initMeaning sets m) g = setMeaningOf st) ∧
      (meaningGet greekRegistry "∇" =
          { type := SemanticType.OPERATOR, role := SemanticRole.PREFIXOP,
            font := SemanticFont.NORMAL } ∧
        meaningGet greekRegistry "∂" =
          { type := SemanticType.OPERATOR, role := SemanticRole.PREFIXOP,
            font := SemanticFont.NORMAL } ∧
        meaningGet greekRegistry "α" =
          { type := SemanticType.IDENTIFIER, role := SemanticRole.GREEKLETTER,
            font := SemanticFont.NORMAL }) := by
  constructor
  · intro sets m g st _ hlast
    rw [meaningGet, initMeaning_get?_lastContaining, hlast]
    rfl
  · refine ⟨by decide, by decide, by decide⟩

/-- Witness for the first conjunct of C5: two concrete groups sharing the
glyph `"x"`; the meaning finally stored for `"x"` is the second group's. -/
theorem c5_initMeaning_last_group_wins_witness :
    meaningGet
      (initMeaning
        [{ set := ["x"], type := SemanticType.OPERATOR,
           role := SemanticRole.ADDITION },
         { set := ["x", "y"], type := SemanticType.RELATION,
           role := SemanticRole.EQUALITY }] [])
      "x" =
      setMeaningOf
        { set := ["x", "y"], type := SemanticType.RELATION,
          role := SemanticRole.EQUALITY } :=
  c5_initMeaning_last_group_wins.1 _ _ _ _ (by decide) (by decide)

/-- Claim C2.  `meaningMap.get` is total: whatever the registry state, the
lookup of a string that was never registered (the underlying `Map` holds no
entry for it) returns the `UNKNOWN/UNKNOWN/UNKNOWN` triple and never
fails. -/
theorem c2_meaningGet_unknown_default (m : JsMap SemanticMeaning) (g : String)
    (h : m.get? g = none) :
    meaningGet m g =
      { type := SemanticType.UNKNOWN, role := SemanticRole.UNKNOWN,
        font := SemanticFont.UNKNOWN } := by
  rw [meaningGet, h]
  rfl

/-- Witness for C2: a registry holding only `"a"`, probed at the
unregistered string `"b"`. -/
theorem c2_meaningGet_unknown_default_witness :
    meaningGet
      [("a", { type := SemanticType.IDENTIFIER,
               role := SemanticRole.LATINLETTER,
               font := SemanticFont.NORMAL })] "b" =
      { type := SemanticType.UNKNOWN, role := SemanticRole.UNKNOWN,
        font := SemanticFont.UNKNOWN } :=
  c2_meaningGet_unknown_default _ _ (by decide)



/-!
## Spanish number words (`l10n/numbers_es.ts`)

All functions are translated from `numbers_es.ts`.  JavaScript array reads
`a[i]` inside `numberToWords` always hit the arrays in range and are
modelled by `jsArr` (defaulting to `""`); inside `numberToOrdinal` the index
`num - 1` can be `-1`, so reads are modelled by `jsIndex` over `Int`
indices, `none` standing for `undefined`.
-/

def zero_ : String := "cero"

/-- String representation of zero to twenty-nine. -/
def onesNumbers_ : List String := [
  "",
  "uno",
  "dos",
  "tres",
  "cuatro",
  "cinco",
  "seis",
  "siete",
  "ocho",
  "nueve",
  "diez",
  "once",
  "doce",
  "trece",
  "catorce",
  "quince",
  "dieciséis",
  "diecisiete",
  "dieciocho",
  "diecinueve",
  "veinte",
  "veintiuno",
  "veintidós",
  "veintitrés",
  "veinticuatro",
  "veinticinco",
  "veintiséis",
  "veintisiete",
  "veintiocho",
  "veintinueve"
]

/-- String representation of thirty to ninety. -/
def tensNumbers_ : List String := [
  "", "", "", "treinta", "cuarenta", "cincuenta", "sesenta", "setenta",
  "ochenta", "noventa"
]

/-- String representation of one hundred to nine hundred. -/
def hundredsNumbers_ : List String := [
  "", "cien", "doscientos", "trescientos", "cuatrocientos", "quinientos",
  "seiscientos", "setecientos", "ochocientos", "novecientos"
]

/-- String representation of thousand to decillion (including the source's
typos `cuatrilló` and `mil cuatrillóes`). -/
def largeNumbers_ : List String := [
  "",           "mil",
  "millón",     "mil millónes",
  "billón",     "mil billónes",
  "trillón",    "mil trillónes",
  "cuatrilló",  "mil cuatrillóes",
  "quintillón", "mil quintillónes",
  "sextillón",  "mil sextillónes",
  "septillón",  "mil septillónes",
  "octillón",   "mil octillónes",
  "nonillón",   "mil nonillónes",
  "decillón",   "mil decillónes"
]

/-- In-range JavaScript array read (`a[i]` with `0 ≤ i < a.length`); the
`""` default is never used on the call sites of `numberToWords`. -/
def jsArr (l : List String) (i : Nat) : String := l.getD i ""

/-- Function `tensToWords_` from `numbers_es.ts`.  JavaScript `&&`/`||` on strings
test for the empty string. -/
def tensToWords_ (num : Nat) : String :=
  let n := num % 100
  if n < 30 then jsArr onesNumbers_ n
  else
    let tens := jsArr tensNumbers_ (n / 10)
    let ones := jsArr onesNumbers_ (n % 10)
    if tens != "" && ones != "" then tens ++ " y " ++ ones
    else if tens != "" then tens
    else ones

/-- Function `hundredsToWords_` from `numbers_es.ts` (the `hundreds + 'to' + ' ' +
tens` branch creates `ciento ...`). -/
def hundredsToWords_ (num : Nat) : String :=
  let n := num % 1000
  let hundred := n / 100
  let hundreds := jsArr hundredsNumbers_ hundred
  let tens := tensToWords_ (n % 100)
  if hundred == 1 then
    if tens == "" then hundreds
    else hundreds ++ "to" ++ " " ++ tens
  else if hundreds != "" && tens != "" then hundreds ++ " " ++ tens
  else if hundreds != "" then hundreds
  else tens

/-- The test `large.match('/^mil( |$)/')` of `numberToWords`.  The argument is a
*string*, so JavaScript compiles `new RegExp("/^mil( |$)/")`: a pattern
consisting of the literal character `/`, the start-of-input anchor `^`, the
literals `mil`, the group `( |$)` and the literal `/`.  The anchor `^`
(without the `m` flag) succeeds only at input position 0, yet here it comes
after the pattern has already consumed the literal `/`; hence this regex
matches no string whatsoever, and the guard that was meant to suppress the
leading `'un '` before `mil` never fires.
-/
def milRegexMatch (_large : String) : Bool := false

/-- Model of `large.replace(/ón$/, 'ones')`: rewrite a final `ón` to `ones`. -/
def replaceOnSuffix (large : String) : String :=
  if large.endsWith "ón" then large.dropRight 2 ++ "ones" else large

/-- The `while (num > 0)` loop of `numberToWords`, with the mutable
`num`/`pos`/`str` made explicit. -/
def buildWords (num pos : Nat) (str : String) : String :=
  if h : num = 0 then str
  else
    let hundreds := num % 1000
    let str' :=
      if hundreds != 0 then
        let large := jsArr largeNumbers_ pos
        let huns := hundredsToWords_ hundreds
        if pos == 0 then huns
        else if hundreds == 1 then
          (if milRegexMatch large then large else "un " ++ large) ++
            (if str != "" then " " ++ str else "")
        else
          hundredsToWords_ hundreds ++ " " ++ replaceOnSuffix large ++
            (if str != "" then " " ++ str else "")
      else str
    buildWords (num / 1000) (pos + 1) str'
termination_by num
decreasing_by exact Nat.div_lt_self (Nat.pos_of_ne_zero h) (by norm_num)

/-- Model of `num.toString()`: the `Number::toString` algorithm of ECMA-262
(radix 10) applied to a JavaScript number whose mathematical value is the
non-negative integer `m`.  A value with at most 21 decimal digits is
rendered as its plain decimal digit string; a larger value is rendered in
exponential notation — the significand (the digits with trailing zeros
stripped, a decimal point after the first digit when more than one digit
remains) followed by `e+` and the decimal exponent.

Scope of the model: every integer below `2^53` is exactly representable as
a double, where this is the exact JavaScript behaviour.  Beyond `2^53` the
actual argument is the double nearest the integer and JavaScript prints its
*shortest round-trip* significand, which can differ from the ideal value in
low-order digits; what the model does capture faithfully there is the
notation — exponential, never the plain digit string, for every value at or
above `10^21`.  The concrete inputs evaluated in the theorems below
(`10^21`, exactly representable, and `10^36`, whose nearest double prints
`1e+36`) agree with real JavaScript exactly. -/
def jsNumberToString (m : Nat) : String :=
  let digits := Nat.repr m
  if digits.length ≤ 21 then digits
  else
    let sds := (digits.data.reverse.dropWhile (fun c => c == '0')).reverse
    match sds with
    | [] => digits
    | c :: rest =>
      (if rest.isEmpty then String.mk [c]
       else String.mk [c] ++ "." ++ String.mk rest) ++
        "e+" ++ Nat.repr (digits.length - 1)

/-- Function `numberToWords` from `numbers_es.ts`.  `num.toString()` is
modelled by `jsNumberToString`. -/
def numberToWords (num : Nat) : String :=
  if num == 0 then zero_
  else if num ≥ 10 ^ 36 then jsNumberToString num
  else buildWords num 0 ""

-- Ordinals

/-- String representation of the source's first twelve feminine ordinals. -/
def onesOrdinals_ : List String := [
  "primera", "segunda", "tercera", "cuarta", "quinta", "sexta", "séptima",
  "octava", "novena", "décima", "undécima", "duodécima"
]

/-- Ordinal words for the tens positions. -/
def tensOrdinals_ : List String := [
  "décima", "vigésima", "trigésima", "cuadragésima", "quincuagésima",
  "sexagésima", "septuagésima", "octogésima", "nonagésima"
]

/-- Ordinal words for the hundreds positions. -/
def hundredsOrdinals_ : List String := [
  "centésima", "ducentésima", "tricentésima", "cuadringentésima",
  "quingentésima", "sexcentésima", "septingentésima", "octingentésima",
  "noningentésima"
]

/-- JavaScript array read with a possibly negative index: `a[-1]` is
`undefined` (`none`). -/
def jsIndex (l : List String) (i : Int) : Option String :=
  if i < 0 then none else l.get? i.toNat

/-- Model of `result.join(' ')` on an array that may contain `undefined` entries:
`Array.prototype.join` renders `undefined` as the empty string. -/
def joinSpace (result : List (Option String)) : String :=
  String.intercalate " " (result.map (fun o => o.getD ""))

/-- Function `numberToOrdinal` from `numbers_es.ts`, with JavaScript semantics for the
out-of-range read `onesOrdinals_[num - 1]` at `num = 0`: the read yields
`undefined`, which is returned as such from the `num <= 12` branch
(modelled `none`) and rendered as an empty string by `join` when it was
pushed onto `result`.  The `_plural` parameter is unused, as in the source.
-/
def numberToOrdinal (num : Nat) (_plural : Bool) : Option String :=
  if num > 1999 then some (jsNumberToString num ++ "a")
  else if num ≤ 12 then jsIndex onesOrdinals_ ((num : Int) - 1)
  else
    let s1 := if num ≥ 1000 then (num - 1000, [some "milésima"]) else (num, [])
    let num1 := s1.1
    let result1 := s1.2
    if num1 = 0 then some (joinSpace result1)
    else
      let pos := num1 / 100
      let s2 :=
        if pos > 0 then
          (num1 % 100, result1 ++ [jsIndex hundredsOrdinals_ ((pos : Int) - 1)])
        else (num1, result1)
      let num2 := s2.1
      let result2 := s2.2
      let result3 :=
        if num2 ≤ 12 then result2 ++ [jsIndex onesOrdinals_ ((num2 : Int) - 1)]
        else
          let pos2 := num2 / 10
          let s3 :=
            if pos2 > 0 then
              (num2 % 10, result2 ++ [jsIndex tensOrdinals_ ((pos2 : Int) - 1)])
            else (num2, result2)
          let num3 := s3.1
          let r := s3.2
          if num3 > 0 then r ++ [jsIndex onesOrdinals_ ((num3 : Int) - 1)]
          else r
      some (joinSpace result3)

/-- Bounds-checked variant of `numberToOrdinal`: identical control flow, but
every array read is required to be in range — the result is `none` exactly
when the execution performs an out-of-bounds read (in this function the
only read that can be out of bounds is `onesOrdinals_[num - 1]` with
`num = 0`, i.e. index `-1`).
-/
def numberToOrdinalChecked (num : Nat) (_plural : Bool) : Option String :=
  if num > 1999 then some (jsNumberToString num ++ "a")
  else if num ≤ 12 then jsIndex onesOrdinals_ ((num : Int) - 1)
  else
    let s1 := if num ≥ 1000 then (num - 1000, ["milésima"]) else (num, [])
    let num1 := s1.1
    let result1 := s1.2
    if num1 = 0 then some (String.intercalate " " result1)
    else do
      let pos := num1 / 100
      let s2 ←
        if pos > 0 then do
          let w ← jsIndex hundredsOrdinals_ ((pos : Int) - 1)
          pure (num1 % 100, result1 ++ [w])
        else pure (num1, result1)
      let num2 := s2.1
      let result2 := s2.2
      let result3 ←
        if num2 ≤ 12 then do
          let w ← jsIndex onesOrdinals_ ((num2 : Int) - 1)
          pure (result2 ++ [w])
        else do
          let pos2 := num2 / 10
          let s3 ←
            if pos2 > 0 then do
              let w ← jsIndex tensOrdinals_ ((pos2 : Int) - 1)
              pure (num2 % 10, result2 ++ [w])
            else pure (num2, result2)
          let num3 := s3.1
          let r := s3.2
          if num3 > 0 then do
            let w ← jsIndex onesOrdinals_ ((num3 : Int) - 1)
            pure (r ++ [w])
          else pure r
      pure (String.intercalate " " result3)

/-- Claim C3 (evaluation at the failing input).  The mil-exception of
`numberToWords` is dead code: its test passes the regex to `match` as a
plain string (see `milRegexMatch`), so the leading `'un '` is prepended
before *every* scale word, including `mil`: `numberToWords(1000)` is
`'un mil'`, not the intended `'mil'`, while `numberToWords(1000000)` is
`'un millón'` as expected.
-/
theorem c3_numberToWords_un_mil :
    numberToWords 1000 = "un mil" ∧ numberToWords 1000000 = "un millón" := by
  constructor
  · show buildWords 1000 0 "" = "un mil"
    rw [buildWords, buildWords, buildWords]
    decide
  · show buildWords 1000000 0 "" = "un millón"
    rw [buildWords, buildWords, buildWords, buildWords]
    decide

/-- Claim C6.  The Spanish cardinal function produces the locale's irregular
forms: `numberToWords(0) = 'cero'`, `numberToWords(21) = 'veintiuno'` (the
joined twenty-one form) and `numberToWords(100) = 'cien'` (the bare hundred
form).
-/
theorem c6_numberToWords_irregular_forms :
    numberToWords 0 = "cero" ∧ numberToWords 21 = "veintiuno" ∧
      numberToWords 100 = "cien" := by
  refine ⟨rfl, ?_, ?_⟩
  · show buildWords 21 0 "" = "veintiuno"
    rw [buildWords, buildWords]
    decide
  · show buildWords 100 0 "" = "cien"
    rw [buildWords, buildWords]
    decide

/-- Claim C7, counterexample.  At the ceiling itself the program does not
return the decimal digit string: `numberToWords(10^36)` is `'1e+36'` —
JavaScript renders every value at or above `10^21` in exponential notation —
and likewise `numberToOrdinal(10^21, plural)` is `'1e+21a'`, not the
37-digit (resp. 22-digit) numeral the claim asserts. -/
theorem c7_magnitude_ceiling_cex :
    numberToWords (10 ^ 36) = "1e+36" ∧
      numberToWords (10 ^ 36) ≠ Nat.repr (10 ^ 36) ∧
      numberToOrdinal (10 ^ 21) true = some ("1e+21" ++ "a") ∧
      numberToOrdinal (10 ^ 21) true ≠ some (Nat.repr (10 ^ 21) ++ "a") := by
  refine ⟨by decide, by decide, by decide, by decide⟩

/-- Claim C7, amended.  Numbers at or beyond the supported magnitude
ceiling degrade to JavaScript's literal `Number.prototype.toString`
rendering and never raise an error: for every `n ≥ 10^36`, `numberToWords`
returns `toString(n)`, and for every `n > 1999` and every plural flag,
`numberToOrdinal` returns `toString(n)` concatenated with the fixed suffix
`'a'`.  That rendering is the decimal digit string of `n` exactly when `n`
has at most 21 digits (so for the ordinal fallback up to `10^21`); at and
above `10^21` — in particular on the whole cardinal fallback range — it is
exponential notation, not the digit string (last conjunct, at the
ceiling). -/
theorem c7_magnitude_ceiling_fallback :
    (∀ n : Nat, n ≥ 10 ^ 36 → numberToWords n = jsNumberToString n) ∧
      (∀ (n : Nat) (plural : Bool), n > 1999 →
        numberToOrdinal n plural = some (jsNumberToString n ++ "a")) ∧
      (∀ n : Nat, (Nat.repr n).length ≤ 21 → jsNumberToString n = Nat.repr n) ∧
      jsNumberToString (10 ^ 36) = "1e+36" := by
  refine ⟨?_, ?_, ?_, by decide⟩
  · intro n hn
    have h0 : n ≠ 0 := by positivity
    unfold numberToWords
    rw [if_neg (by simpa using h0), if_pos hn]
  · intro n plural hn
    unfold numberToOrdinal
    rw [if_pos hn]
  · intro n h
    unfold jsNumberToString
    rw [if_pos h]

/-- Witness for C7, at `n = 10^36` (cardinal fallback), `n = 2000`
(ordinal fallback) and `n = 2000` again (decimal rendering below 22
digits). -/
theorem c7_magnitude_ceiling_fallback_witness :
    numberToWords (10 ^ 36) = jsNumberToString (10 ^ 36) ∧
      numberToOrdinal 2000 true = some (jsNumberToString 2000 ++ "a") ∧
      jsNumberToString 2000 = Nat.repr 2000 :=
  ⟨c7_magnitude_ceiling_fallback.1 (10 ^ 36) (by norm_num),
   c7_magnitude_ceiling_fallback.2.1 2000 true (by norm_num),
   c7_magnitude_ceiling_fallback.2.2.1 2000 (by decide)⟩

/-- Claim C9.  The `plural` parameter of the Spanish `numberToOrdinal` is unused
(`_plural`), so the output is independent of it.
-/
theorem c9_numberToOrdinal_plural_independent
    (n : Nat) (b1 b2 : Bool) : numberToOrdinal n b1 = numberToOrdinal n b2 :=
  rfl

/-- Claim C10.  In-bounds precondition of `numberToOrdinal`: every array read is
in range for every `n ≥ 1` that is not a multiple of 100, for `n = 1000`,
and for every `n > 1999` (`numberToOrdinalChecked` succeeds); but for
`n = 0` and for every multiple of 100 with `100 ≤ n ≤ 1900` and `n ≠ 1000`
the execution reaches the read `onesOrdinals_[num - 1]` with `num = 0`,
i.e. the out-of-bounds index `-1` (`numberToOrdinalChecked` fails), so the
result lacks a locale word at that position.
-/
theorem c10_numberToOrdinal_bounds :
    (∀ (n : Nat) (plural : Bool),
        (1 ≤ n ∧ ¬(100 ∣ n)) ∨ n = 1000 ∨ n > 1999 →
        (numberToOrdinalChecked n plural).isSome = true) ∧
      (∀ (n : Nat) (plural : Bool),
        n = 0 ∨ (100 ∣ n ∧ 100 ≤ n ∧ n ≤ 1900 ∧ n ≠ 1000) →
        (numberToOrdinalChecked n plural).isNone = true) := by
  have k0 : ∀ m < 500, ∀ plural : Bool,
      (((1 ≤ m ∧ ¬(100 ∣ m)) ∨ m = 1000) →
        (numberToOrdinalChecked m plural).isSome = true) ∧
      ((m = 0 ∨ (100 ∣ m ∧ 100 ≤ m ∧ m ≤ 1900 ∧ m ≠ 1000)) →
        (numberToOrdinalChecked m plural).isNone = true) := by
    set_option maxRecDepth 8000 in decide
  have k1 : ∀ m < 500, ∀ plural : Bool,
      (((1 ≤ m + 500 ∧ ¬(100 ∣ m + 500)) ∨ m + 500 = 1000) →
        (numberToOrdinalChecked (m + 500) plural).isSome = true) ∧
      ((m + 500 = 0 ∨
          (100 ∣ m + 500 ∧ 100 ≤ m + 500 ∧ m + 500 ≤ 1900 ∧ m + 500 ≠ 1000)) →
        (numberToOrdinalChecked (m + 500) plural).isNone = true) := by
    set_option maxRecDepth 8000 in decide
  have k2 : ∀ m < 500, ∀ plural : Bool,
      (((1 ≤ m + 1000 ∧ ¬(100 ∣ m + 1000)) ∨ m + 1000 = 1000) →
        (numberToOrdinalChecked (m + 1000) plural).isSome = true) ∧
      ((m + 1000 = 0 ∨
          (100 ∣ m + 1000 ∧ 100 ≤ m + 1000 ∧ m + 1000 ≤ 1900 ∧
            m + 1000 ≠ 1000)) →
        (numberToOrdinalChecked (m + 1000) plural).isNone = true) := by
    set_option maxRecDepth 8000 in decide
  have k3 : ∀ m < 500, ∀ plural : Bool,
      (((1 ≤ m + 1500 ∧ ¬(100 ∣ m + 1500)) ∨ m + 1500 = 1000) →
        (numberToOrdinalChecked (m + 1500) plural).isSome = true) ∧
      ((m + 1500 = 0 ∨
          (100 ∣ m + 1500 ∧ 100 ≤ m + 1500 ∧ m + 1500 ≤ 1900 ∧
            m + 1500 ≠ 1000)) →
        (numberToOrdinalChecked (m + 1500) plural).isNone = true) := by
    set_option maxRecDepth 8000 in decide
  have key : ∀ n, n < 2000 → ∀ plural : Bool,
      (((1 ≤ n ∧ ¬(100 ∣ n)) ∨ n = 1000) →
        (numberToOrdinalChecked n plural).isSome = true) ∧
      ((n = 0 ∨ (100 ∣ n ∧ 100 ≤ n ∧ n ≤ 1900 ∧ n ≠ 1000)) →
        (numberToOrdinalChecked n plural).isNone = true) := by
    intro n hn plural
    by_cases h0 : n < 500
    · exact k0 n h0 plural
    · by_cases h1 : n < 1000
      · have := k1 (n - 500) (by omega) plural
        rwa [show n - 500 + 500 = n by omega] at this
      · by_cases h2 : n < 1500
        · have := k2 (n - 1000) (by omega) plural
          rwa [show n - 1000 + 1000 = n by omega] at this
        · have := k3 (n - 1500) (by omega) plural
          rwa [show n - 1500 + 1500 = n by omega] at this
  constructor
  · intro n plural h
    by_cases hn : n < 2000
    · rcases h with h | h | h
      · exact (key n hn plural).1 (Or.inl h)
      · exact (key n hn plural).1 (Or.inr h)
      · exact absurd hn (by omega)
    · unfold numberToOrdinalChecked
      rw [if_pos (by omega)]
      rfl
  · intro n plural h
    have hn : n < 2000 := by
      rcases h with h | h
      · omega
      · omega
    exact (key n hn plural).2 h

/-- Witness for C10: in-bounds at `n = 57`, out of bounds at `n = 1100`. -/
theorem c10_numberToOrdinal_bounds_witness :
    (numberToOrdinalChecked 57 true).isSome = true ∧
      (numberToOrdinalChecked 1100 false).isNone = true :=
  ⟨c10_numberToOrdinal_bounds.1 57 true (Or.inl (by norm_num)),
   c10_numberToOrdinal_bounds.2 1100 false (Or.inr (by norm_num))⟩

/-!
## Semantic tree annotation (`semantic_annotator.js`)

A `SemanticNode` is a tree node with a textual value, an annotation map and
an owned, ordered list of children (`childNodes`).  The annotation map is
generic in the value type `α`.  Mutation of the tree is made explicit:
`annotate` and `visit` return the updated tree.
-/

inductive SNode (α : Type) where
  | mk (value : String) (annots : List (String × α)) (childNodes : List (SNode α))

/-- Update an association list at a key: overwrite the first binding of the
key in place, append a new binding otherwise (the value semantics of a
JavaScript map-like annotation store). -/
def setKV : List (String × α) → String → α → List (String × α)
  | [], d, v => [(d, v)]
  | (k, w) :: t, d, v =>
    if k == d then (d, v) :: t else (k, w) :: setKV t d v

/-- Modelled from the spec: `SemanticNode.addAnnotation` (the `SemanticNode`
class is not among the sources; §3 of the spec describes the node's
"mapping from annotation-domain name to annotation value").  Stores `v`
as the node's annotation value for the domain `d`.
-/
def addAnnot (d : String) (v : α) : SNode α → SNode α
  | .mk value a cs => .mk value (setKV a d v) cs

/-- Read a node's annotation value for domain `d`, if set. -/
def getAnnot (d : String) : SNode α → Option α
  | .mk _ a _ => (a.find? (fun p => p.1 == d)).map Prod.snd

mutual

/-- Method `sre.SemanticAnnotator.prototype.annotate`:

    node.childNodes.forEach(goog.bind(this.annotate, this));
    node.addAnnotation(this.domain, this.func(node));

every child subtree is annotated first, then the node's own annotation is
computed by `func` from the node (which already carries its children's
now-set annotations) and stored under the annotator's domain.
-/
def annotate (d : String) (f : SNode α → α) : SNode α → SNode α
  | .mk value a cs =>
    let cs' := annotateList d f cs
    addAnnot d (f (.mk value a cs')) (.mk value a cs')

/-- The `childNodes.forEach` of `annotate`, in child order. -/
def annotateList (d : String) (f : SNode α → α) :
    List (SNode α) → List (SNode α)
  | [] => []
  | c :: cs => annotate d f c :: annotateList d f cs

end

mutual

/-- Method `sre.SemanticVisitor.prototype.visit`:

    var result = this.func(node, info);
    node.addAnnotation(this.domain, result[0]);
    for (var i = 0, child; child = node.childNodes[i]; i++) {
      result = this.visit(child, result[1]);
    }
    return result;

computes `result = func(node, info)`, stores `result[0]` as the node's
annotation, then walks the children in order, each child receiving the
second component of the previous `result`, and returns the final `result`
(which for a childless node is `func(node, info)` itself, *not* the
incoming `info`).
-/
def visit (d : String) (f : SNode α → β → α × β) :
    SNode α → β → SNode α × (α × β)
  | .mk value a cs, info =>
    let result := f (.mk value a cs) info
    let rest := visitList d f cs result
    (SNode.mk value (setKV a d result.1) rest.1, rest.2)

/-- The child loop of `visit`: thread the `result` pair through the
children in order, returning the updated children and the last `result`. -/
def visitList (d : String) (f : SNode α → β → α × β) :
    List (SNode α) → α × β → List (SNode α) × (α × β)
  | [], r => ([], r)
  | c :: cs, r =>
    let cr := visit d f c r.2
    let rest := visitList d f cs cr.2
    (cr.1 :: rest.1, rest.2)

end

theorem setKV_idem (a : List (String × α)) (d : String) (v : α) :
    setKV (setKV a d v) d v = setKV a d v := by
  induction a with
  | nil => simp [setKV]
  | cons p t ih =>
    obtain ⟨k, w⟩ := p
    by_cases h : k == d
    · simp [setKV, h]
    · simp [setKV, h, ih]

theorem find?_setKV (a : List (String × α)) (d : String) (v : α) :
    (setKV a d v).find? (fun p => p.1 == d) = some (d, v) := by
  induction a with
  | nil => simp [setKV]
  | cons p t ih =>
    obtain ⟨k, w⟩ := p
    by_cases h : k == d
    · simp [setKV, h]
    · simp [setKV, h, ih]

theorem visitList_append (d : String) (f : SNode α → β → α × β)
    (cs : List (SNode α)) (c : SNode α) (r : α × β) :
    (visitList d f (cs ++ [c]) r).2 =
      (visit d f c (visitList d f cs r).2.2).2 := by
  induction cs generalizing r with
  | nil => rfl
  | cons x xs ih => simp [visitList, ih]

/-- Claim C4, counterexample.  For a childless node, `visit` returns the pair
freshly computed by `func(node, info)`, not the input info: with
`func(n, i) = [0, i + 1]` and `info = 0`, the returned propagated
component is `1`, not `0` — refuting the claim that for a node with no
children `visit` "returns the input info unchanged".
-/
theorem c4_visit_leaf_cex :
    (visit "d" (fun (_ : SNode Nat) (i : Nat) => (0, i + 1))
          (SNode.mk "x" [] []) 0).2.2 = 1 ∧
      (visit "d" (fun (_ : SNode Nat) (i : Nat) => (0, i + 1))
          (SNode.mk "x" [] []) 0).2.2 ≠ 0 := by
  decide

/-- Claim C4, amended.  `visit` assigns the node's annotation from the first
component of `func(node, info)`; it recurses into the children in child
order, each child receiving the propagated (second) component of the
previous result; it returns the result of recursing into the last child —
and if the node has no children it returns the pair `func(node, info)`
itself (whose propagated component is in general different from the input
info), not the input info.
-/
theorem c4_visit_characterization (d : String) (f : SNode α → β → α × β)
    (value : String) (a : List (String × α)) (info : β) :
    (∀ cs : List (SNode α),
        getAnnot d ((visit d f (SNode.mk value a cs) info).1) =
          some (f (SNode.mk value a cs) info).1) ∧
      (visit d f (SNode.mk value a []) info).2 = f (SNode.mk value a []) info ∧
      (∀ (cs : List (SNode α)) (c : SNode α),
        (visit d f (SNode.mk value a (cs ++ [c])) info).2 =
          (visit d f c
            (visitList d f cs
              (f (SNode.mk value a (cs ++ [c])) info)).2.2).2) := by
  refine ⟨?_, rfl, ?_⟩
  · intro cs
    simp [visit, getAnnot, find?_setKV]
  · intro cs c
    simp [visit, visitList_append]

mutual

theorem annotate_twice (d : String) (f : SNode α → α)
    (hf : ∀ (n : SNode α) (v : α), f (addAnnot d v n) = f n) :
    ∀ t : SNode α, annotate d f (annotate d f t) = annotate d f t
  | SNode.mk value a cs =>
    have hl : annotateList d f (annotateList d f cs) = annotateList d f cs :=
      annotateList_twice d f hf cs
    by
      show annotate d f
          (addAnnot d (f (SNode.mk value a (annotateList d f cs)))
            (SNode.mk value a (annotateList d f cs))) = _
      simp only [annotate, addAnnot, hl]
      have hw := hf (SNode.mk value a (annotateList d f cs))
        (f (SNode.mk value a (annotateList d f cs)))
      simp only [addAnnot] at hw
      rw [hw, setKV_idem]

theorem annotateList_twice (d : String) (f : SNode α → α)
    (hf : ∀ (n : SNode α) (v : α), f (addAnnot d v n) = f n) :
    ∀ cs : List (SNode α),
      annotateList d f (annotateList d f cs) = annotateList d f cs
  | [] => rfl
  | c :: cs =>
    have h1 : annotate d f (annotate d f c) = annotate d f c :=
      annotate_twice d f hf c
    have h2 : annotateList d f (annotateList d f cs) = annotateList d f cs :=
      annotateList_twice d f hf cs
    by simp [annotateList, h1, h2]

end

/-- Claim C8, counterexample.  `annotate` is not idempotent for every
deterministic pure annotation function: the pure function
`f(n) = (n has a "d" annotation) ? 1 : 0` assigns `0` to a bare leaf on the
first run, but `1` on the second run, because the first run's own
annotation has changed the node that `f` observes.
-/
theorem c8_annotate_not_idempotent_cex :
    getAnnot "d"
        (annotate "d" (fun n => if (getAnnot "d" n).isSome then (1 : Nat) else 0)
          (annotate "d" (fun n => if (getAnnot "d" n).isSome then (1 : Nat) else 0)
            (SNode.mk "x" [] []))) = some 1 ∧
      getAnnot "d"
        (annotate "d" (fun n => if (getAnnot "d" n).isSome then (1 : Nat) else 0)
          (SNode.mk "x" [] [])) = some 0 := by
  decide

/-- Claim C8, amended.  `annotate` recursively processes all children of a node
before computing the node's own annotation (second conjunct, the shape of
one step), and re-running `annotate` on the structurally unchanged result
reproduces the same tree — hence the same annotation value at every node —
*provided* the annotation function's value is unchanged by setting the
node's own annotation for the annotator's domain (it may freely depend on
the children's annotations).
-/
theorem c8_annotate_idempotent_of_insensitive (d : String) (f : SNode α → α)
    (hf : ∀ (n : SNode α) (v : α), f (addAnnot d v n) = f n) :
    (∀ t : SNode α, annotate d f (annotate d f t) = annotate d f t) ∧
      (∀ (value : String) (a : List (String × α)) (cs : List (SNode α)),
        annotate d f (SNode.mk value a cs) =
          addAnnot d (f (SNode.mk value a (annotateList d f cs)))
            (SNode.mk value a (annotateList d f cs))) :=
  ⟨annotate_twice d f hf, fun _ _ _ => rfl⟩

/-- Witness for C8, with the constant annotation function `7` (insensitive
to any annotation) on a two-node tree. -/
theorem c8_annotate_idempotent_witness :
    annotate "d" (fun _ => (7 : Nat))
        (annotate "d" (fun _ => (7 : Nat))
          (SNode.mk "x" [] [SNode.mk "y" [] []])) =
      annotate "d" (fun _ => (7 : Nat))
        (SNode.mk "x" [] [SNode.mk "y" [] []]) :=
  (c8_annotate_idempotent_of_insensitive "d" (fun _ => 7) (fun _ _ => rfl)).1 _

end SRE
